import Mathlib

/-!
Verification of the fuel-route-optimizer core engine.

The development shallowly embeds the route optimization engine:

* `src/fuel_stations/utils/geo.py` — the `haversine` great-circle distance and
  `get_bounding_box` pre-filter.  The mathematical content of `haversine`
  (degree conversion, the `a`/`c` formula with Earth radius 3959 and `atan2`)
  is embedded over the real numbers.
* `src/fuel_stations/services/route_optimizer.py` — the greedy segmentation
  algorithm (`RouteOptimizationService`).  The algorithm is embedded over the
  rationals, parameterised by the distance function `d` (standing for the
  floating-point `haversine`) and by `cosr` (standing for `cos ∘ radians`,
  used only inside `get_bounding_box`): the control flow of the service never
  depends on anything about these functions beyond the comparisons it
  performs, so every theorem below quantifies over them, adding exactly the
  analytic facts (non-negativity, …) a given property needs.  Concrete
  computable instantiations (`taxi`, `cosrOne`) are used to evaluate the model
  on explicit inputs.
-/

namespace FuelRoute

/-! ## Geo math over ℝ (src/fuel_stations/utils/geo.py) -/

/-- Degrees to radians, as Python's `math.radians`. -/
noncomputable def radians (x : ℝ) : ℝ := x * Real.pi / 180

/-- Two-argument arctangent, as Python's `math.atan2` (range (-π, π]). -/
noncomputable def atan2 (y x : ℝ) : ℝ :=
  if 0 < x then Real.arctan (y / x)
  else if x < 0 then
    if y < 0 then Real.arctan (y / x) - Real.pi else Real.arctan (y / x) + Real.pi
  else if 0 < y then Real.pi / 2
  else if y < 0 then -(Real.pi / 2)
  else 0

/-- The intermediate value `a` of the haversine formula in `geo.haversine`:
`sin(dlat/2)**2 + cos(lat1_rad)*cos(lat2_rad)*sin(dlon/2)**2`. -/
noncomputable def hav_a (lat1 lon1 lat2 lon2 : ℝ) : ℝ :=
  Real.sin ((radians lat2 - radians lat1) / 2) ^ 2 +
    Real.cos (radians lat1) * Real.cos (radians lat2) *
      Real.sin ((radians lon2 - radians lon1) / 2) ^ 2

/-- Great-circle distance in miles, `geo.haversine`:
`R * c` with `R = 3959` and `c = 2 * atan2(sqrt(a), sqrt(1 - a))`. -/
noncomputable def haversine (lat1 lon1 lat2 lon2 : ℝ) : ℝ :=
  3959 * (2 * atan2 (Real.sqrt (hav_a lat1 lon1 lat2 lon2))
    (Real.sqrt (1 - hav_a lat1 lon1 lat2 lon2)))

/-! ## Data model (src/fuel_stations/models.py, rows of `FuelStation`) -/

/-- A row of the `FuelStation` model: primary key, textual fields, the
`DecimalField` price and coordinates (exact decimals, hence rationals). -/
structure Station where
  pk : ℕ
  truckstop_name : String
  address : String
  city : String
  state : String
  retail_price : ℚ
  latitude : ℚ
  longitude : ℚ
deriving DecidableEq

/-- Result of `geo.get_bounding_box`. -/
structure BBox where
  lat_min : ℚ
  lat_max : ℚ
  lon_min : ℚ
  lon_max : ℚ
deriving DecidableEq

/-- Model of `geo.get_bounding_box` over ℚ: `cosr` stands for the
floating-point `cos(radians(lat))` of the source. -/
def get_bounding_box (cosr : ℚ → ℚ) (lat lon radius_miles : ℚ) : BBox :=
  { lat_min := lat - radius_miles / 69
    lat_max := lat + radius_miles / 69
    lon_min := lon - radius_miles / (69 * cosr lat)
    lon_max := lon + radius_miles / (69 * cosr lat) }

/-- The `FuelStation.objects.filter(latitude__gte=…, latitude__lte=…,
longitude__gte=…, longitude__lte=…)` predicate. -/
def inBox (b : BBox) (s : Station) : Bool :=
  decide (b.lat_min ≤ s.latitude) && decide (s.latitude ≤ b.lat_max) &&
    decide (b.lon_min ≤ s.longitude) && decide (s.longitude ≤ b.lon_max)

/-- The ordering used by `.order_by("retail_price")`: ascending price
(ties left in catalog order by the stable sort below). -/
def priceLE (a b : Station) : Prop := a.retail_price ≤ b.retail_price

instance : DecidableRel priceLE := fun a b =>
  inferInstanceAs (Decidable (a.retail_price ≤ b.retail_price))

instance : IsTotal Station priceLE := ⟨fun a b => le_total a.retail_price b.retail_price⟩

instance : IsTrans Station priceLE := ⟨fun _ _ _ hab hbc => le_trans hab hbc⟩

/-- The candidate list of `_find_best_station` (route_optimizer.py:296-303):
bounding-box pre-filter over the catalog, ascending price order, first 100. -/
def stationCandidates (cosr : ℚ → ℚ) (catalog : List Station)
    (lat lon max_distance : ℚ) : List Station :=
  (List.insertionSort priceLE
    (catalog.filter (inBox (get_bounding_box cosr lat lon max_distance)))).take 100

/-- The per-candidate check of `_find_best_station` (route_optimizer.py:307-323):
exact distance within range, and strictly closer to the destination than the
current position is. -/
def feasibleB (d : ℚ → ℚ → ℚ → ℚ → ℚ) (lat lon max_distance dest_lat dest_lon : ℚ)
    (s : Station) : Bool :=
  decide (d lat lon s.latitude s.longitude ≤ max_distance) &&
    decide (d s.latitude s.longitude dest_lat dest_lon < d lat lon dest_lat dest_lon)

/-- Model of `RouteOptimizationService._find_best_station`: the first
candidate, in candidate order, passing both checks. -/
def find_best_station (d : ℚ → ℚ → ℚ → ℚ → ℚ) (cosr : ℚ → ℚ) (catalog : List Station)
    (lat lon max_distance dest_lat dest_lon : ℚ) : Option Station :=
  (stationCandidates cosr catalog lat lon max_distance).find?
    (feasibleB d lat lon max_distance dest_lat dest_lon)

/-! ## Route geometry -/

/-- One `{lat, lon}` point of the route geometry. -/
structure GeoPoint where
  lat : ℚ
  lon : ℚ
deriving DecidableEq

/-- Sum of distances between consecutive points of a polyline. -/
def pathDistance (d : ℚ → ℚ → ℚ → ℚ → ℚ) : List GeoPoint → ℚ
  | [] => 0
  | [_] => 0
  | p :: q :: rest => d p.lat p.lon q.lat q.lon + pathDistance d (q :: rest)

/-- Model of `_calculate_geometry_distance` (route_optimizer.py:161-173):
summed distance between consecutive geometry points from `start_idx` on. -/
def calculate_geometry_distance (d : ℚ → ℚ → ℚ → ℚ → ℚ) (geometry : List GeoPoint)
    (start_idx : ℕ) : ℚ :=
  pathDistance d (geometry.drop start_idx)

/-- The scan of `_find_closest_point_idx`: carries the best `(distance, index)`
so far (`none` plays the role of the initial `float("inf")`), improving only on
a strictly smaller distance, so ties keep the first occurrence. -/
def closestGo (d : ℚ → ℚ → ℚ → ℚ → ℚ) (lat lon : ℚ) :
    List GeoPoint → ℕ → Option (ℚ × ℕ) → ℕ
  | [], _, acc => match acc with
    | none => 0
    | some (_, j) => j
  | p :: ps, i, acc =>
    let dist := d lat lon p.lat p.lon
    match acc with
    | none => closestGo d lat lon ps (i + 1) (some (dist, i))
    | some (m, j) =>
      if dist < m then closestGo d lat lon ps (i + 1) (some (dist, i))
      else closestGo d lat lon ps (i + 1) (some (m, j))

/-- Model of `_find_closest_point_idx` (route_optimizer.py:175-186). -/
def find_closest_point_idx (d : ℚ → ℚ → ℚ → ℚ → ℚ) (geometry : List GeoPoint)
    (lat lon : ℚ) : ℕ :=
  closestGo d lat lon geometry 0 none

/-! ## Safety insights -/

/-- The `safety_stop` payload of a driver-fatigue insight. -/
structure SafetyStopInfo where
  name : String
  city : String
  price : ℚ
  distance_miles : ℚ
deriving DecidableEq

/-- A safety-insight record.  The human-readable `message` string of the
source is presentation-only (it is read by no code path) and is not modelled;
`safety_stop` is `none` exactly for the standalone advisory insight of
`_generate_initial_safety_insights`, which carries no `safety_stop` key. -/
structure SafetyInsight where
  type : String
  safety_stop : Option SafetyStopInfo
deriving DecidableEq

/-- Python `round(x, 1)` to one decimal place, used for the reported
`distance_miles` (the model rounds exact halves up; no theorem below
evaluates it at an exact half). -/
def round1 (q : ℚ) : ℚ := (round (10 * q) : ℤ) / 10

/-- Python `round(x, 2)` to two decimal places, used for
`distance_from_start` (same remark about exact halves as `round1`). -/
def round2 (q : ℚ) : ℚ := (round (100 * q) : ℤ) / 100

/-- The `220 <= dist <= 260` membership test of the safety window
(route_optimizer.py:221). -/
def inSafetyRange (d : ℚ → ℚ → ℚ → ℚ → ℚ) (clat clon : ℚ) (s : Station) : Prop :=
  220 ≤ d clat clon s.latitude s.longitude ∧ d clat clon s.latitude s.longitude ≤ 260

instance {d : ℚ → ℚ → ℚ → ℚ → ℚ} {clat clon : ℚ} {s : Station} :
    Decidable (inSafetyRange d clat clon s) :=
  inferInstanceAs (Decidable (_ ∧ _))

/-- The scan of `_identify_safety_insight` (route_optimizer.py:211-224): walk
the candidates keeping the cheapest station so far among those whose distance
from the current position lies in [220, 260]; `none` plays the role of the
initial `min_price = inf`, and only a strictly smaller price replaces the
incumbent, so ties keep the first occurrence. -/
def safetyFold (d : ℚ → ℚ → ℚ → ℚ → ℚ) (clat clon : ℚ) :
    List Station → Option Station → Option Station
  | [], acc => acc
  | s :: ss, acc =>
    if inSafetyRange d clat clon s then
      match acc with
      | none => safetyFold d clat clon ss (some s)
      | some b =>
        if s.retail_price < b.retail_price then safetyFold d clat clon ss (some s)
        else safetyFold d clat clon ss (some b)
    else safetyFold d clat clon ss acc

/-- The cheapest station of the 220-260 mile window scanned by
`_identify_safety_insight` (first one in catalog order on price ties). -/
def cheapest_in_window (d : ℚ → ℚ → ℚ → ℚ → ℚ) (cosr : ℚ → ℚ)
    (catalog : List Station) (clat clon : ℚ) : Option Station :=
  safetyFold d clat clon
    (catalog.filter (inBox (get_bounding_box cosr clat clon 260))) none

/-- The station set the claims call "the window": bounding-box candidates whose
exact distance from the current position lies in [220, 260]. -/
def safetyWindow (d : ℚ → ℚ → ℚ → ℚ → ℚ) (cosr : ℚ → ℚ)
    (catalog : List Station) (clat clon : ℚ) : List Station :=
  (catalog.filter (inBox (get_bounding_box cosr clat clon 260))).filter
    (fun s => decide (inSafetyRange d clat clon s))

/-- Model of `_identify_safety_insight` (route_optimizer.py:188-265). -/
def identify_safety_insight (d : ℚ → ℚ → ℚ → ℚ → ℚ) (cosr : ℚ → ℚ)
    (catalog : List Station) (current_lat current_lon : ℚ)
    (optimal_station : Station) (distance_to_optimal : ℚ) : Option SafetyInsight :=
  if distance_to_optimal < 220 then none
  else
    match cheapest_in_window d cosr catalog current_lat current_lon with
    | none => none
    | some b =>
      if b.pk = optimal_station.pk then none
      else some
        { type := "DRIVER_FATIGUE_WARNING"
          safety_stop := some
            { name := b.truckstop_name
              city := b.city
              price := b.retail_price
              distance_miles :=
                round1 (d current_lat current_lon b.latitude b.longitude) } }

/-- Model of `_generate_initial_safety_insights` (route_optimizer.py:267-282). -/
def generate_initial_safety_insights (distance : ℚ) : List SafetyInsight :=
  if 240 < distance then [{ type := "DRIVER_FATIGUE_WARNING", safety_stop := none }]
  else []

/-! ## Segmentation loop and orchestrator -/

/-- One emitted fuel-stop record (route_optimizer.py:140-149). -/
structure FuelStop where
  name : String
  address : String
  lat : ℚ
  lon : ℚ
  price : ℚ
  distance_from_start : ℚ
deriving DecidableEq

/-- Failure outcomes of the engine.  `insufficientStations` models the raised
`InsufficientStationsError`; `fuelExhausted` is a modelling artifact marking
that the recursion depth budget given to the loop model ran out — the Python
`while` loop has no such budget, and the termination theorem below shows the
budget `catalog.length + 1` used by `find_fuel_stops_with_geometry` is never
actually hit. -/
inductive OptError where
  | insufficientStations
  | fuelExhausted
deriving DecidableEq

/-- The `while` loop of `_find_fuel_stops_with_geometry`
(route_optimizer.py:104-157), as structural recursion on a depth budget
`fuel`.  State: current position `(clat, clon)`, geometry index `idx`,
accumulated `total_distance_traveled`. -/
def find_fuel_stops_go (d : ℚ → ℚ → ℚ → ℚ → ℚ) (cosr : ℚ → ℚ)
    (catalog : List Station) (end_lat end_lon : ℚ) (geometry : List GeoPoint)
    (max_range : ℚ) :
    ℕ → ℚ → ℚ → ℕ → ℚ → Except OptError (List FuelStop × List SafetyInsight)
  | 0, _, _, _, _ => .error .fuelExhausted
  | fuel + 1, clat, clon, idx, total =>
    if idx < geometry.length - 1 then
      if calculate_geometry_distance d geometry idx ≤ max_range then .ok ([], [])
      else
        match find_best_station d cosr catalog clat clon max_range end_lat end_lon with
        | none => .error .insufficientStations
        | some st =>
          let dts := d clat clon st.latitude st.longitude
          let total2 := total + dts
          let insight := identify_safety_insight d cosr catalog clat clon st dts
          let stop : FuelStop :=
            { name := st.truckstop_name
              address := st.address ++ ", " ++ st.city ++ ", " ++ st.state
              lat := st.latitude
              lon := st.longitude
              price := st.retail_price
              distance_from_start := round2 total2 }
          match find_fuel_stops_go d cosr catalog end_lat end_lon geometry max_range
              fuel st.latitude st.longitude
              (find_closest_point_idx d geometry st.latitude st.longitude) total2 with
          | .ok (stops, insights) => .ok (stop :: stops, insight.toList ++ insights)
          | .error e => .error e
    else .ok ([], [])

/-- Model of `_find_fuel_stops_with_geometry` (route_optimizer.py:85-159):
run the loop from the start position with depth budget `catalog.length + 1`
(shown sufficient by the termination theorem). -/
def find_fuel_stops_with_geometry (d : ℚ → ℚ → ℚ → ℚ → ℚ) (cosr : ℚ → ℚ)
    (catalog : List Station) (start_lat start_lon end_lat end_lon : ℚ)
    (geometry : List GeoPoint) (max_range : ℚ) :
    Except OptError (List FuelStop × List SafetyInsight) :=
  find_fuel_stops_go d cosr catalog end_lat end_lon geometry max_range
    (catalog.length + 1) start_lat start_lon 0 0

/-- Model of `_get_average_fuel_price` (route_optimizer.py:327-339).  The
Python code returns the aggregate only when it is truthy: `None` (empty
catalog) and `Decimal 0` both fall back to `Decimal("3.50")`. -/
def get_average_fuel_price (catalog : List Station) : ℚ :=
  match catalog with
  | [] => 7 / 2
  | _ =>
    let avg := (catalog.map (·.retail_price)).sum / catalog.length
    if avg = 0 then 7 / 2 else avg

/-- The route returned by the routing provider, as consumed by
`optimize_route`: total distance in miles and the path geometry. -/
structure Route where
  distance_miles : ℚ
  geometry : List GeoPoint
deriving DecidableEq

/-- The successful result dictionary of `optimize_route`. -/
structure RoutePlan where
  route : Route
  fuel_stops : List FuelStop
  safety_insights : List SafetyInsight
  total_cost : ℚ
  total_distance_miles : ℚ
deriving DecidableEq

/-- Model of `RouteOptimizationService.optimize_route`
(route_optimizer.py:39-83).  The outbound call to the routing provider is
abstracted: the provider's `route` is an input.  `mpg` and `max_range` model
`settings.MPG` and `settings.EFFECTIVE_RANGE_MILES`. -/
def optimize_route (d : ℚ → ℚ → ℚ → ℚ → ℚ) (cosr : ℚ → ℚ) (catalog : List Station)
    (mpg max_range : ℚ) (start_lat start_lon end_lat end_lon : ℚ)
    (route : Route) : Except OptError RoutePlan :=
  let total_distance := route.distance_miles
  if total_distance ≤ max_range then
    .ok
      { route := route
        fuel_stops := []
        safety_insights := generate_initial_safety_insights total_distance
        total_cost := total_distance / mpg * get_average_fuel_price catalog
        total_distance_miles := total_distance }
  else
    match find_fuel_stops_with_geometry d cosr catalog start_lat start_lon
        end_lat end_lon route.geometry max_range with
    | .error e => .error e
    | .ok (fuel_stops, safety_insights) =>
      let avg_price :=
        if fuel_stops.isEmpty then get_average_fuel_price catalog
        else (fuel_stops.map (·.price)).sum / fuel_stops.length
      .ok
        { route := route
          fuel_stops := fuel_stops
          safety_insights := safety_insights
          total_cost := total_distance / mpg * avg_price
          total_distance_miles := total_distance }

/-! ## Concrete instantiations used to evaluate the model -/

/-- A concrete stand-in distance function for witnesses and counterexamples:
scaled taxicab distance on coordinates (a genuine metric, computable on ℚ). -/
def taxi (lat1 lon1 lat2 lon2 : ℚ) : ℚ := 69 * (|lat2 - lat1| + |lon2 - lon1|)

/-- A concrete stand-in for `cos ∘ radians` near the equator. -/
def cosrOne : ℚ → ℚ := fun _ => 1

def stA : Station :=
  { pk := 1, truckstop_name := "A", address := "1 A St", city := "Ax", state := "TX"
    retail_price := 1, latitude := 1 / 10000, longitude := 0 }

def stB : Station :=
  { pk := 2, truckstop_name := "B", address := "2 B St", city := "Bx", state := "TX"
    retail_price := 2, latitude := 2 / 10000, longitude := 0 }

def stC : Station :=
  { pk := 3, truckstop_name := "C", address := "3 C St", city := "Cx", state := "TX"
    retail_price := 3, latitude := 7, longitude := 0 }

/-- Concrete catalog: two cheap stations a sliver from the start, one dearer
station seven degrees up the route. -/
def cexCatalog : List Station := [stA, stB, stC]

/-- Concrete route geometry from (0,0) to (10,0) through (7,0). -/
def cexGeometry : List GeoPoint := [⟨0, 0⟩, ⟨7, 0⟩, ⟨10, 0⟩]

/-- Concrete provider route for the scenario (690 taxi-miles). -/
def cexRoute : Route := { distance_miles := 690, geometry := cexGeometry }

/-- Decidable equality on `Except`, so closed runs of the model can be
checked by `decide`. -/
def exceptDecEq {ε α : Type} [DecidableEq ε] [DecidableEq α] :
    (a b : Except ε α) → Decidable (a = b)
  | .error e, .error f =>
    match decEq e f with
    | isTrue h => isTrue (by rw [h])
    | isFalse h => isFalse (by intro hh; cases hh; exact h rfl)
  | .error _, .ok _ => isFalse (by intro h; cases h)
  | .ok _, .error _ => isFalse (by intro h; cases h)
  | .ok a, .ok b =>
    match decEq a b with
    | isTrue h => isTrue (by rw [h])
    | isFalse h => isFalse (by intro hh; cases hh; exact h rfl)

instance {ε α : Type} [DecidableEq ε] [DecidableEq α] : DecidableEq (Except ε α) :=
  exceptDecEq

/-- The fuel stops the model emits on the concrete scenario: the cumulative
distances of the two near-start stops both round to 0.01 miles. -/
def cexStops : List FuelStop :=
  [{ name := "A", address := "1 A St, Ax, TX", lat := 1 / 10000, lon := 0
     price := 1, distance_from_start := 1 / 100 },
   { name := "B", address := "2 B St, Bx, TX", lat := 2 / 10000, lon := 0
     price := 2, distance_from_start := 1 / 100 },
   { name := "C", address := "3 C St, Cx, TX", lat := 7, lon := 0
     price := 3, distance_from_start := 483 }]

/-- The plan the model returns on the concrete scenario. -/
def cexPlan : RoutePlan :=
  { route := cexRoute
    fuel_stops := cexStops
    safety_insights := []
    total_cost := 276 / 5
    total_distance_miles := 690 }

/-- Number of catalog stations strictly closer (straight-line) to the
destination than the current position: the measure that shrinks at every
station-selecting iteration of the loop. -/
def progressCount (d : ℚ → ℚ → ℚ → ℚ → ℚ) (catalog : List Station)
    (elat elon clat clon : ℚ) : ℕ :=
  (catalog.filter
    (fun s => decide (d s.latitude s.longitude elat elon < d clat clon elat elon))).length

/-- A degenerate provider route of distance zero. -/
def zeroRoute : Route := { distance_miles := 0, geometry := [] }

/-- The plan the model returns on `zeroRoute`: no stops and zero cost. -/
def zeroPlan : RoutePlan :=
  { route := zeroRoute
    fuel_stops := []
    safety_insights := []
    total_cost := 0
    total_distance_miles := 0 }

/-- A short provider route whose distance needs no stops. -/
def shortRoute : Route := { distance_miles := 100, geometry := cexGeometry }

/-- A provider route whose reported distance (600) exceeds the 500 max range
while its two-point geometry sums to only 69 taxi-miles. -/
def mismatchRoute : Route := { distance_miles := 600, geometry := [⟨0, 0⟩, ⟨1, 0⟩] }

def stD : Station :=
  { pk := 5, truckstop_name := "D", address := "5 D St", city := "Dx", state := "TX"
    retail_price := 3, latitude := 7 / 2, longitude := 0 }

def stE : Station :=
  { pk := 6, truckstop_name := "E", address := "6 E St", city := "Ex", state := "TX"
    retail_price := 5, latitude := 33 / 10, longitude := 0 }

/-- Concrete catalog for the safety-window scenario: both stations sit in the
220-260 taxi-mile band around the origin. -/
def wCatalog : List Station := [stD, stE]

/-- Concrete stand-in for `cos(radians(lat))` at latitude 80:
cos 80° = 0.17365 to five decimals. -/
def cosr80 : ℚ → ℚ := fun _ => 17365 / 100000

/-- Concrete stand-in distance for the high-latitude scenario: along the 80th
parallel the real `haversine` averages 259.14 / 21.75 ≈ 11.91 miles per degree
of longitude over the span used below (great-circle chord shortening:
3959 · arccos(sin² 80° + cos² 80° · cos 21.75°) ≈ 259.14), against the planar
69 · cos 80° ≈ 11.98 miles per degree that `get_bounding_box` assumes — the
discrepancy that lets the box miss a station within 260 miles. -/
def d80 (lat1 lon1 lat2 lon2 : ℚ) : ℚ :=
  69 * |lat2 - lat1| + (1191 / 100) * |lon2 - lon1|

/-- The chosen cost-optimal stop of the high-latitude scenario: 276 miles
south of the current position (80, 0), outside the [220, 260] window and
outside the 260-mile bounding box. -/
def stOpt80 : Station :=
  { pk := 30, truckstop_name := "O", address := "30 O St", city := "Ox", state := "AK"
    retail_price := 2, latitude := 76, longitude := 0 }

/-- A station 259.04 `d80`-miles east of (80, 0): inside the claim's
[220, 260] distance window, but outside the 260-mile bounding box, whose
longitude half-width at latitude 80 is only 260 / (69 · 0.17365) ≈ 21.70°,
less than the station's 21.75°. -/
def stHigh80 : Station :=
  { pk := 31, truckstop_name := "H", address := "31 H St", city := "Hx", state := "AK"
    retail_price := 1, latitude := 80, longitude := 87 / 4 }

/-- Catalog for the high-latitude safety-window scenario. -/
def highLatCatalog : List Station := [stOpt80, stHigh80]

/-! ## Lemmas about the geo math -/

lemma hav_a_symm (l1 o1 l2 o2 : ℝ) : hav_a l1 o1 l2 o2 = hav_a l2 o2 l1 o1 := by
  unfold hav_a
  have h1 : (radians l1 - radians l2) / 2 = -((radians l2 - radians l1) / 2) := by ring
  have h2 : (radians o1 - radians o2) / 2 = -((radians o2 - radians o1) / 2) := by ring
  rw [h1, h2]
  simp only [Real.sin_neg]
  ring

lemma hav_a_self (l o : ℝ) : hav_a l o l o = 0 := by
  unfold hav_a
  simp [sub_self]

/-! ## List helper lemmas -/

lemma find?_some_split {α : Type} (p : α → Bool) :
    ∀ (l : List α) (a : α), l.find? p = some a →
      ∃ l1 l2, l = l1 ++ a :: l2 ∧ p a = true ∧ ∀ x ∈ l1, p x = false := by
  intro l
  induction l with
  | nil => intro a h; simp at h
  | cons x xs ih =>
    intro a h
    by_cases hx : p x = true
    · rw [List.find?_cons_of_pos _ hx] at h
      obtain rfl : x = a := by injection h
      exact ⟨[], xs, rfl, hx, by simp⟩
    · rw [List.find?_cons_of_neg _ hx] at h
      obtain ⟨l1, l2, rfl, hpa, hall⟩ := ih a h
      refine ⟨x :: l1, l2, rfl, hpa, ?_⟩
      intro y hy
      rcases List.mem_cons.mp hy with rfl | hy
      · simpa using hx
      · exact hall y hy

lemma filter_length_le_of_imp {α : Type} (p q : α → Bool) :
    ∀ l : List α, (∀ x ∈ l, p x = true → q x = true) →
      (l.filter p).length ≤ (l.filter q).length := by
  intro l
  induction l with
  | nil => intro _; simp
  | cons x xs ih =>
    intro h
    have hxs : ∀ y ∈ xs, p y = true → q y = true := fun y hy => h y (List.mem_cons_of_mem _ hy)
    by_cases hp : p x = true
    · have hq : q x = true := h x (List.mem_cons_self _ _) hp
      simp only [List.filter_cons, hp, hq, if_true]
      simpa using Nat.succ_le_succ (ih hxs)
    · have hp' : p x = false := by simpa using hp
      simp only [List.filter_cons, hp']
      by_cases hq : q x = true
      · simp only [hq, if_true]
        exact (ih hxs).trans (Nat.le_succ _)
      · have hq' : q x = false := by simpa using hq
        simp only [hq']
        exact ih hxs

lemma filter_length_lt_of_mem {α : Type} (p q : α → Bool) :
    ∀ l : List α, ∀ a ∈ l, p a = false → q a = true →
      (∀ x ∈ l, p x = true → q x = true) →
      (l.filter p).length < (l.filter q).length := by
  intro l
  induction l with
  | nil => intro a ha; simp at ha
  | cons x xs ih =>
    intro a ha hpa hqa h
    have hxs : ∀ y ∈ xs, p y = true → q y = true := fun y hy => h y (List.mem_cons_of_mem _ hy)
    rcases List.mem_cons.mp ha with rfl | ha
    · simp only [List.filter_cons, hpa, hqa, if_true]
      simpa using Nat.lt_succ_of_le (filter_length_le_of_imp p q xs hxs)
    · by_cases hp : p x = true
      · have hq : q x = true := h x (List.mem_cons_self _ _) hp
        simp only [List.filter_cons, hp, hq, if_true]
        simpa using Nat.succ_lt_succ (ih a ha hpa hqa hxs)
      · have hp' : p x = false := by simpa using hp
        simp only [List.filter_cons, hp']
        by_cases hq : q x = true
        · simp only [hq, if_true, List.length_cons]
          exact Nat.lt_succ_of_lt (ih a ha hpa hqa hxs)
        · have hq' : q x = false := by simpa using hq
          simp only [hq']
          exact ih a ha hpa hqa hxs

/-! ## Lemmas about station selection -/

lemma stationCandidates_mem {cosr : ℚ → ℚ} {catalog : List Station}
    {lat lon maxd : ℚ} {st : Station}
    (h : st ∈ stationCandidates cosr catalog lat lon maxd) :
    st ∈ catalog ∧ inBox (get_bounding_box cosr lat lon maxd) st = true := by
  have h1 := List.mem_of_mem_take h
  have h2 := (List.mem_insertionSort priceLE).mp h1
  have h3 := List.mem_filter.mp h2
  exact ⟨h3.1, h3.2⟩

lemma stationCandidates_sorted (cosr : ℚ → ℚ) (catalog : List Station)
    (lat lon maxd : ℚ) :
    List.Sorted priceLE (stationCandidates cosr catalog lat lon maxd) :=
  (List.sorted_insertionSort priceLE _).sublist (List.take_sublist _ _)

lemma stationCandidates_length_le (cosr : ℚ → ℚ) (catalog : List Station)
    (lat lon maxd : ℚ) :
    (stationCandidates cosr catalog lat lon maxd).length ≤ 100 :=
  (List.length_take _ _).le.trans (min_le_left _ _)

lemma find_best_station_some {d : ℚ → ℚ → ℚ → ℚ → ℚ} {cosr : ℚ → ℚ}
    {catalog : List Station} {lat lon maxd dlat dlon : ℚ} {st : Station}
    (h : find_best_station d cosr catalog lat lon maxd dlat dlon = some st) :
    st ∈ catalog ∧ d lat lon st.latitude st.longitude ≤ maxd ∧
      d st.latitude st.longitude dlat dlon < d lat lon dlat dlon := by
  have hp := List.find?_some h
  have hm := List.mem_of_find?_eq_some h
  rw [feasibleB, Bool.and_eq_true, decide_eq_true_eq, decide_eq_true_eq] at hp
  exact ⟨(stationCandidates_mem hm).1, hp.1, hp.2⟩

lemma find_best_station_nil (d : ℚ → ℚ → ℚ → ℚ → ℚ) (cosr : ℚ → ℚ)
    (lat lon maxd dlat dlon : ℚ) :
    find_best_station d cosr [] lat lon maxd dlat dlon = none := rfl

/-! ## Lemmas about the segmentation loop -/

lemma go_chain_range (d : ℚ → ℚ → ℚ → ℚ → ℚ) (cosr : ℚ → ℚ) (catalog : List Station)
    (elat elon : ℚ) (geometry : List GeoPoint) (maxr : ℚ) :
    ∀ (fuel : ℕ) (clat clon : ℚ) (idx : ℕ) (total : ℚ)
      (stops : List FuelStop) (ins : List SafetyInsight),
      find_fuel_stops_go d cosr catalog elat elon geometry maxr fuel clat clon idx total =
        .ok (stops, ins) →
      List.Chain (fun p q : ℚ × ℚ => d p.1 p.2 q.1 q.2 ≤ maxr) (clat, clon)
        (stops.map fun f => (f.lat, f.lon)) := by
  intro fuel
  induction fuel with
  | zero =>
    intro clat clon idx total stops ins h
    simp [find_fuel_stops_go] at h
  | succ fuel ih =>
    intro clat clon idx total stops ins h
    rw [find_fuel_stops_go] at h
    by_cases hidx : idx < geometry.length - 1
    · rw [if_pos hidx] at h
      by_cases hrem : calculate_geometry_distance d geometry idx ≤ maxr
      · rw [if_pos hrem] at h
        simp only [Except.ok.injEq, Prod.mk.injEq] at h
        obtain ⟨rfl, rfl⟩ := h
        exact List.Chain.nil
      · rw [if_neg hrem] at h
        cases hfb : find_best_station d cosr catalog clat clon maxr elat elon with
        | none => rw [hfb] at h; cases h
        | some st =>
          rw [hfb] at h
          dsimp only at h
          cases hrec : find_fuel_stops_go d cosr catalog elat elon geometry maxr fuel
              st.latitude st.longitude
              (find_closest_point_idx d geometry st.latitude st.longitude)
              (total + d clat clon st.latitude st.longitude) with
          | error e => rw [hrec] at h; cases h
          | ok pr =>
            obtain ⟨stops', ins'⟩ := pr
            rw [hrec] at h
            simp only [Except.ok.injEq, Prod.mk.injEq] at h
            obtain ⟨rfl, rfl⟩ := h
            simp only [List.map_cons]
            exact List.Chain.cons (find_best_station_some hfb).2.1
              (ih st.latitude st.longitude _ _ stops' ins' hrec)
    · rw [if_neg hidx] at h
      simp only [Except.ok.injEq, Prod.mk.injEq] at h
      obtain ⟨rfl, rfl⟩ := h
      exact List.Chain.nil

lemma go_chain_strict (d : ℚ → ℚ → ℚ → ℚ → ℚ) (cosr : ℚ → ℚ) (catalog : List Station)
    (elat elon : ℚ) (geometry : List GeoPoint) (maxr : ℚ) :
    ∀ (fuel : ℕ) (clat clon : ℚ) (idx : ℕ) (total : ℚ)
      (stops : List FuelStop) (ins : List SafetyInsight),
      find_fuel_stops_go d cosr catalog elat elon geometry maxr fuel clat clon idx total =
        .ok (stops, ins) →
      List.Chain (fun p q : ℚ × ℚ => d q.1 q.2 elat elon < d p.1 p.2 elat elon)
        (clat, clon) (stops.map fun f => (f.lat, f.lon)) := by
  intro fuel
  induction fuel with
  | zero =>
    intro clat clon idx total stops ins h
    simp [find_fuel_stops_go] at h
  | succ fuel ih =>
    intro clat clon idx total stops ins h
    rw [find_fuel_stops_go] at h
    by_cases hidx : idx < geometry.length - 1
    · rw [if_pos hidx] at h
      by_cases hrem : calculate_geometry_distance d geometry idx ≤ maxr
      · rw [if_pos hrem] at h
        simp only [Except.ok.injEq, Prod.mk.injEq] at h
        obtain ⟨rfl, rfl⟩ := h
        exact List.Chain.nil
      · rw [if_neg hrem] at h
        cases hfb : find_best_station d cosr catalog clat clon maxr elat elon with
        | none => rw [hfb] at h; cases h
        | some st =>
          rw [hfb] at h
          dsimp only at h
          cases hrec : find_fuel_stops_go d cosr catalog elat elon geometry maxr fuel
              st.latitude st.longitude
              (find_closest_point_idx d geometry st.latitude st.longitude)
              (total + d clat clon st.latitude st.longitude) with
          | error e => rw [hrec] at h; cases h
          | ok pr =>
            obtain ⟨stops', ins'⟩ := pr
            rw [hrec] at h
            simp only [Except.ok.injEq, Prod.mk.injEq] at h
            obtain ⟨rfl, rfl⟩ := h
            simp only [List.map_cons]
            exact List.Chain.cons (find_best_station_some hfb).2.2
              (ih st.latitude st.longitude _ _ stops' ins' hrec)
    · rw [if_neg hidx] at h
      simp only [Except.ok.injEq, Prod.mk.injEq] at h
      obtain ⟨rfl, rfl⟩ := h
      exact List.Chain.nil

lemma round2_mono {x y : ℚ} (h : x ≤ y) : round2 x ≤ round2 y := by
  unfold round2
  have h2 : round (100 * x) ≤ round (100 * y) := by
    rw [round_eq, round_eq]
    exact Int.floor_le_floor (by linarith)
  have h3 : ((round (100 * x) : ℤ) : ℚ) ≤ ((round (100 * y) : ℤ) : ℚ) := by
    exact_mod_cast h2
  linarith

lemma go_stops_mono (d : ℚ → ℚ → ℚ → ℚ → ℚ) (cosr : ℚ → ℚ) (catalog : List Station)
    (elat elon : ℚ) (geometry : List GeoPoint) (maxr : ℚ)
    (hnn : ∀ a b c e : ℚ, 0 ≤ d a b c e) :
    ∀ (fuel : ℕ) (clat clon : ℚ) (idx : ℕ) (total : ℚ)
      (stops : List FuelStop) (ins : List SafetyInsight),
      find_fuel_stops_go d cosr catalog elat elon geometry maxr fuel clat clon idx total =
        .ok (stops, ins) →
      List.Chain' (fun a b : FuelStop =>
        a.distance_from_start ≤ b.distance_from_start) stops ∧
      ∀ s ∈ stops, round2 total ≤ s.distance_from_start := by
  intro fuel
  induction fuel with
  | zero =>
    intro clat clon idx total stops ins h
    simp [find_fuel_stops_go] at h
  | succ fuel ih =>
    intro clat clon idx total stops ins h
    rw [find_fuel_stops_go] at h
    by_cases hidx : idx < geometry.length - 1
    · rw [if_pos hidx] at h
      by_cases hrem : calculate_geometry_distance d geometry idx ≤ maxr
      · rw [if_pos hrem] at h
        simp only [Except.ok.injEq, Prod.mk.injEq] at h
        obtain ⟨rfl, rfl⟩ := h
        exact ⟨by simp, by simp⟩
      · rw [if_neg hrem] at h
        cases hfb : find_best_station d cosr catalog clat clon maxr elat elon with
        | none => rw [hfb] at h; cases h
        | some st =>
          rw [hfb] at h
          dsimp only at h
          cases hrec : find_fuel_stops_go d cosr catalog elat elon geometry maxr fuel
              st.latitude st.longitude
              (find_closest_point_idx d geometry st.latitude st.longitude)
              (total + d clat clon st.latitude st.longitude) with
          | error e => rw [hrec] at h; cases h
          | ok pr =>
            obtain ⟨stops', ins'⟩ := pr
            rw [hrec] at h
            simp only [Except.ok.injEq, Prod.mk.injEq] at h
            obtain ⟨rfl, rfl⟩ := h
            obtain ⟨hch', hall⟩ := ih st.latitude st.longitude _ _ stops' ins' hrec
            have htot : total ≤ total + d clat clon st.latitude st.longitude :=
              le_add_of_nonneg_right (hnn _ _ _ _)
            constructor
            · refine List.chain'_cons'.mpr ⟨?_, hch'⟩
              intro b hb
              exact hall b (List.mem_of_mem_head? hb)
            · intro s hs
              rcases List.mem_cons.mp hs with rfl | hs
              · exact round2_mono htot
              · exact (round2_mono htot).trans (hall s hs)
    · rw [if_neg hidx] at h
      simp only [Except.ok.injEq, Prod.mk.injEq] at h
      obtain ⟨rfl, rfl⟩ := h
      exact ⟨by simp, by simp⟩

lemma go_ne_fuelExhausted (d : ℚ → ℚ → ℚ → ℚ → ℚ) (cosr : ℚ → ℚ)
    (catalog : List Station) (elat elon : ℚ) (geometry : List GeoPoint) (maxr : ℚ) :
    ∀ (fuel : ℕ) (clat clon : ℚ) (idx : ℕ) (total : ℚ),
      progressCount d catalog elat elon clat clon < fuel →
      find_fuel_stops_go d cosr catalog elat elon geometry maxr fuel clat clon idx total ≠
        .error .fuelExhausted := by
  intro fuel
  induction fuel with
  | zero =>
    intro clat clon idx total hlt
    exact absurd hlt (Nat.not_lt_zero _)
  | succ fuel ih =>
    intro clat clon idx total hlt h
    rw [find_fuel_stops_go] at h
    by_cases hidx : idx < geometry.length - 1
    · rw [if_pos hidx] at h
      by_cases hrem : calculate_geometry_distance d geometry idx ≤ maxr
      · rw [if_pos hrem] at h; cases h
      · rw [if_neg hrem] at h
        cases hfb : find_best_station d cosr catalog clat clon maxr elat elon with
        | none => rw [hfb] at h; simp at h
        | some st =>
          rw [hfb] at h
          dsimp only at h
          cases hrec : find_fuel_stops_go d cosr catalog elat elon geometry maxr fuel
              st.latitude st.longitude
              (find_closest_point_idx d geometry st.latitude st.longitude)
              (total + d clat clon st.latitude st.longitude) with
          | ok pr => obtain ⟨stops', ins'⟩ := pr; rw [hrec] at h; cases h
          | error e =>
            rw [hrec] at h
            injection h with he
            subst he
            have hst := find_best_station_some hfb
            have hlt2 : progressCount d catalog elat elon st.latitude st.longitude <
                progressCount d catalog elat elon clat clon := by
              unfold progressCount
              refine filter_length_lt_of_mem _ _ catalog st hst.1
                (decide_eq_false (lt_irrefl _)) (decide_eq_true hst.2.2) ?_
              intro x hx hpx
              exact decide_eq_true (lt_trans (of_decide_eq_true hpx) hst.2.2)
            exact ih st.latitude st.longitude _ _ (by omega) hrec
    · rw [if_neg hidx] at h; cases h

lemma go_step_insufficient (d : ℚ → ℚ → ℚ → ℚ → ℚ) (cosr : ℚ → ℚ)
    (catalog : List Station) (elat elon : ℚ) (geometry : List GeoPoint) (maxr : ℚ)
    (fuel : ℕ) (clat clon : ℚ) (idx : ℕ) (total : ℚ)
    (hidx : idx < geometry.length - 1)
    (hrem : maxr < calculate_geometry_distance d geometry idx)
    (hfb : find_best_station d cosr catalog clat clon maxr elat elon = none) :
    find_fuel_stops_go d cosr catalog elat elon geometry maxr (fuel + 1)
      clat clon idx total = .error .insufficientStations := by
  rw [find_fuel_stops_go, if_pos hidx, if_neg (not_le.mpr hrem), hfb]

/-! ## Lemmas about the safety-window scan -/

lemma safetyFold_ne_none (d : ℚ → ℚ → ℚ → ℚ → ℚ) (clat clon : ℚ) :
    ∀ (l : List Station) (a : Station), safetyFold d clat clon l (some a) ≠ none := by
  intro l
  induction l with
  | nil => intro a h; simp [safetyFold] at h
  | cons s ss ih =>
    intro a h
    rw [safetyFold] at h
    by_cases hr : inSafetyRange d clat clon s
    · rw [if_pos hr] at h
      by_cases hp : s.retail_price < a.retail_price
      · rw [if_pos hp] at h; exact ih s h
      · rw [if_neg hp] at h; exact ih a h
    · rw [if_neg hr] at h; exact ih a h

lemma safetyFold_some (d : ℚ → ℚ → ℚ → ℚ → ℚ) (clat clon : ℚ) :
    ∀ (l : List Station) (acc : Option Station) (b : Station),
      safetyFold d clat clon l acc = some b →
      (acc = some b ∨ b ∈ l.filter (fun s => decide (inSafetyRange d clat clon s))) ∧
      (∀ a, acc = some a → b.retail_price ≤ a.retail_price) ∧
      (∀ s ∈ l.filter (fun s => decide (inSafetyRange d clat clon s)),
        b.retail_price ≤ s.retail_price) := by
  intro l
  induction l with
  | nil =>
    intro acc b h
    have h' : acc = some b := h
    refine ⟨Or.inl h', ?_, ?_⟩
    · intro a ha
      rw [h'] at ha
      injection ha with ha
      rw [ha]
    · intro s hs; simp at hs
  | cons t ts ih =>
    intro acc b h
    by_cases hr : inSafetyRange d clat clon t
    · have hfil : (t :: ts).filter (fun s => decide (inSafetyRange d clat clon s)) =
          t :: ts.filter (fun s => decide (inSafetyRange d clat clon s)) := by
        simp [List.filter_cons, hr]
      cases acc with
      | none =>
        rw [safetyFold, if_pos hr] at h
        obtain ⟨hmem, hacc, hmin⟩ := ih (some t) b h
        have hbt : b.retail_price ≤ t.retail_price := hacc t rfl
        refine ⟨?_, ?_, ?_⟩
        · right
          rw [hfil]
          rcases hmem with heq | hm
          · injection heq with heq
            cases heq
            exact List.mem_cons_self _ _
          · exact List.mem_cons_of_mem _ hm
        · intro a ha; cases ha
        · rw [hfil]
          intro s hs
          rcases List.mem_cons.mp hs with rfl | hs
          · exact hbt
          · exact hmin s hs
      | some a0 =>
        rw [safetyFold, if_pos hr] at h
        by_cases hp : t.retail_price < a0.retail_price
        · rw [if_pos hp] at h
          obtain ⟨hmem, hacc, hmin⟩ := ih (some t) b h
          have hbt : b.retail_price ≤ t.retail_price := hacc t rfl
          refine ⟨?_, ?_, ?_⟩
          · right
            rw [hfil]
            rcases hmem with heq | hm
            · injection heq with heq
              cases heq
              exact List.mem_cons_self _ _
            · exact List.mem_cons_of_mem _ hm
          · intro a ha
            injection ha with ha
            exact ha ▸ (hbt.trans hp.le)
          · rw [hfil]
            intro s hs
            rcases List.mem_cons.mp hs with rfl | hs
            · exact hbt
            · exact hmin s hs
        · rw [if_neg hp] at h
          obtain ⟨hmem, hacc, hmin⟩ := ih (some a0) b h
          have hba : b.retail_price ≤ a0.retail_price := hacc a0 rfl
          refine ⟨?_, ?_, ?_⟩
          · rcases hmem with heq | hm
            · exact Or.inl heq
            · right
              rw [hfil]
              exact List.mem_cons_of_mem _ hm
          · intro a ha
            injection ha with ha
            exact ha ▸ hba
          · rw [hfil]
            intro s hs
            rcases List.mem_cons.mp hs with rfl | hs
            · exact hba.trans (not_lt.mp hp)
            · exact hmin s hs
    · have hfil : (t :: ts).filter (fun s => decide (inSafetyRange d clat clon s)) =
          ts.filter (fun s => decide (inSafetyRange d clat clon s)) := by
        simp [List.filter_cons, hr]
      cases acc with
      | none =>
        rw [safetyFold, if_neg hr] at h
        obtain ⟨hmem, hacc, hmin⟩ := ih none b h
        refine ⟨?_, hacc, ?_⟩
        · rcases hmem with heq | hm
          · exact Or.inl heq
          · right; rw [hfil]; exact hm
        · rw [hfil]; exact hmin
      | some a0 =>
        rw [safetyFold, if_neg hr] at h
        obtain ⟨hmem, hacc, hmin⟩ := ih (some a0) b h
        refine ⟨?_, hacc, ?_⟩
        · rcases hmem with heq | hm
          · exact Or.inl heq
          · right; rw [hfil]; exact hm
        · rw [hfil]; exact hmin

lemma safetyFold_none_iff (d : ℚ → ℚ → ℚ → ℚ → ℚ) (clat clon : ℚ) :
    ∀ l : List Station, safetyFold d clat clon l none = none ↔
      l.filter (fun s => decide (inSafetyRange d clat clon s)) = [] := by
  intro l
  induction l with
  | nil => simp [safetyFold]
  | cons t ts ih =>
    rw [safetyFold]
    by_cases hr : inSafetyRange d clat clon t
    · rw [if_pos hr]
      constructor
      · intro h; exact absurd h (safetyFold_ne_none d clat clon ts t)
      · intro h; rw [List.filter_cons] at h; simp [hr] at h
    · rw [if_neg hr]
      rw [List.filter_cons]
      simp only [hr, decide_False, Bool.false_eq_true, if_false]
      exact ih

/-! ## Lemmas about the average price -/

lemma list_sum_pos_of_pos : ∀ l : List ℚ, (∀ x ∈ l, 0 < x) → l ≠ [] → 0 < l.sum := by
  intro l
  induction l with
  | nil => intro _ h; exact absurd rfl h
  | cons x xs ih =>
    intro hpos _
    rw [List.sum_cons]
    rcases eq_or_ne xs [] with rfl | hne
    · simpa using hpos x (List.mem_cons_self _ _)
    · have h1 := ih (fun y hy => hpos y (List.mem_cons_of_mem _ hy)) hne
      have h2 := hpos x (List.mem_cons_self _ _)
      linarith

lemma get_average_fuel_price_pos (catalog : List Station)
    (hpos : ∀ s ∈ catalog, 0 < s.retail_price) :
    0 < get_average_fuel_price catalog := by
  cases catalog with
  | nil => norm_num [get_average_fuel_price]
  | cons a l =>
    have heq : get_average_fuel_price (a :: l) =
        (if ((a :: l).map (·.retail_price)).sum / ((a :: l).length : ℚ) = 0 then 7 / 2
          else ((a :: l).map (·.retail_price)).sum / ((a :: l).length : ℚ)) := rfl
    rw [heq]
    by_cases h0 : ((a :: l).map (·.retail_price)).sum / ((a :: l).length : ℚ) = 0
    · rw [if_pos h0]; norm_num
    · rw [if_neg h0]
      have hsum : 0 < ((a :: l).map (·.retail_price)).sum := by
        apply list_sum_pos_of_pos
        · intro x hx
          obtain ⟨s, hs, rfl⟩ := List.mem_map.mp hx
          exact hpos s hs
        · simp only [List.map_cons]
          exact List.cons_ne_nil _ _
      have hlen : (0 : ℚ) < ((a :: l).length : ℚ) := by
        exact_mod_cast Nat.succ_pos l.length
      exact div_pos hsum hlen

lemma taxi_nonneg : ∀ a b c e : ℚ, 0 ≤ taxi a b c e := by
  intro a b c e
  unfold taxi
  positivity

/-! ## Claim theorems -/

/-- C8: for all coordinate pairs the haversine distance is symmetric,
`haversine(a, b) = haversine(b, a)`, and for every coordinate
`haversine(a, a) = 0` — exactly, since the model works over the reals
(the floating-point code is within epsilon of it). -/
theorem C8_haversine_symm_and_self_zero :
    (∀ lat1 lon1 lat2 lon2 : ℝ,
      haversine lat1 lon1 lat2 lon2 = haversine lat2 lon2 lat1 lon1) ∧
    (∀ lat lon : ℝ, haversine lat lon lat lon = 0) := by
  constructor
  · intro l1 o1 l2 o2
    unfold haversine
    rw [hav_a_symm]
  · intro l o
    unfold haversine
    rw [hav_a_self]
    norm_num [atan2, Real.arctan_zero]

/-- C1: `_find_best_station` returns exactly the first candidate — in the
ascending-price order of the bounding-box pre-filtered candidate list capped
at 100 — whose distance from the current position is at most `max_distance`
and which is strictly closer to the destination than the current position;
it returns nothing iff no candidate passes both checks.  The candidate list
is price-sorted, has at most 100 entries, and consists of catalog stations
inside the bounding box. -/
theorem C1_find_best_station_greedy :
    ∀ (d : ℚ → ℚ → ℚ → ℚ → ℚ) (cosr : ℚ → ℚ) (catalog : List Station)
      (lat lon maxd dest_lat dest_lon : ℚ),
      (∀ st, find_best_station d cosr catalog lat lon maxd dest_lat dest_lon = some st →
        ∃ pre post, stationCandidates cosr catalog lat lon maxd = pre ++ st :: post ∧
          feasibleB d lat lon maxd dest_lat dest_lon st = true ∧
          ∀ t ∈ pre, feasibleB d lat lon maxd dest_lat dest_lon t = false) ∧
      (find_best_station d cosr catalog lat lon maxd dest_lat dest_lon = none ↔
        ∀ st ∈ stationCandidates cosr catalog lat lon maxd,
          feasibleB d lat lon maxd dest_lat dest_lon st = false) ∧
      List.Sorted priceLE (stationCandidates cosr catalog lat lon maxd) ∧
      (stationCandidates cosr catalog lat lon maxd).length ≤ 100 ∧
      (∀ st ∈ stationCandidates cosr catalog lat lon maxd,
        st ∈ catalog ∧ inBox (get_bounding_box cosr lat lon maxd) st = true) := by
  intro d cosr catalog lat lon maxd dest_lat dest_lon
  refine ⟨?_, ?_, stationCandidates_sorted cosr catalog lat lon maxd,
    stationCandidates_length_le cosr catalog lat lon maxd,
    fun st hst => stationCandidates_mem hst⟩
  · intro st h
    exact find?_some_split _ _ _ h
  · constructor
    · intro h st hmem
      simpa using List.find?_eq_none.mp h st hmem
    · intro h
      apply List.find?_eq_none.mpr
      intro st hmem
      simp [h st hmem]

/-- Witness for C1 at a concrete input: on the concrete scenario the selection
returns `stA`, which is therefore the first feasible entry of the price-sorted
candidate list. -/
theorem C1_witness :
    ∃ pre post, stationCandidates cosrOne cexCatalog 0 0 500 = pre ++ stA :: post ∧
      feasibleB taxi 0 0 500 10 0 stA = true ∧
      ∀ t ∈ pre, feasibleB taxi 0 0 500 10 0 t = false :=
  (C1_find_best_station_greedy taxi cosrOne cexCatalog 0 0 500 10 0).1 stA
    (by with_unfolding_all rfl)

/-- C2 (amended): the segmentation loop always terminates — run with recursion
budget `catalog.length + 1` it always yields a genuine outcome, either the
insufficient-stations error or a successful stop list, never budget
exhaustion, because each station-selecting iteration strictly shrinks the set
of catalog stations strictly closer to the destination.  (The claim's stated
reasons fail: an iteration need not decrease the remaining on-route distance,
and the code has no explicit iteration cap — see the counterexample.) -/
theorem C2_loop_terminates :
    ∀ (d : ℚ → ℚ → ℚ → ℚ → ℚ) (cosr : ℚ → ℚ) (catalog : List Station)
      (slat slon elat elon : ℚ) (geometry : List GeoPoint) (maxr : ℚ),
      find_fuel_stops_with_geometry d cosr catalog slat slon elat elon geometry maxr =
        .error .insufficientStations ∨
      ∃ stops ins,
        find_fuel_stops_with_geometry d cosr catalog slat slon elat elon geometry maxr =
          .ok (stops, ins) := by
  intro d cosr catalog slat slon elat elon geometry maxr
  have hne : find_fuel_stops_with_geometry d cosr catalog slat slon elat elon
      geometry maxr ≠ .error .fuelExhausted := by
    apply go_ne_fuelExhausted
    unfold progressCount
    exact Nat.lt_succ_of_le (List.length_filter_le _ _)
  cases hv : find_fuel_stops_with_geometry d cosr catalog slat slon elat elon
      geometry maxr with
  | error e =>
    cases e with
    | insufficientStations => exact Or.inl rfl
    | fuelExhausted => exact absurd hv hne
  | ok pr =>
    obtain ⟨stops, ins⟩ := pr
    exact Or.inr ⟨stops, ins, rfl⟩

/-- Counterexample to C2 as stated: at the concrete loop state at the start of
`cexGeometry` a stop is mandatory (remaining on-route distance 690 > 500), the
iteration selects station `stA` without raising, and the geometry index found
for `stA` is again 0 — so the remaining on-route distance after the iteration
equals the one before it instead of strictly decreasing.  (The source `while`
loop also contains no explicit iteration cap to fall back on.) -/
theorem C2_counterexample :
    500 < calculate_geometry_distance taxi cexGeometry 0 ∧
    find_best_station taxi cosrOne cexCatalog 0 0 500 10 0 = some stA ∧
    find_closest_point_idx taxi cexGeometry stA.latitude stA.longitude = 0 ∧
    calculate_geometry_distance taxi cexGeometry
        (find_closest_point_idx taxi cexGeometry stA.latitude stA.longitude) =
      calculate_geometry_distance taxi cexGeometry 0 := by
  exact ⟨by with_unfolding_all decide, by with_unfolding_all rfl,
    by with_unfolding_all rfl, by with_unfolding_all rfl⟩

/-- C3 (amended): for every successful optimization call with a non-negative
distance function, the emitted `distance_from_start` values are nondecreasing;
strict increase can fail only through the two-decimal rounding of the
cumulative distance, as the counterexample shows. -/
theorem C3_stops_nondecreasing :
    ∀ (d : ℚ → ℚ → ℚ → ℚ → ℚ) (cosr : ℚ → ℚ) (catalog : List Station)
      (mpg maxr slat slon elat elon : ℚ) (route : Route) (plan : RoutePlan),
      (∀ a b c e : ℚ, 0 ≤ d a b c e) →
      optimize_route d cosr catalog mpg maxr slat slon elat elon route = .ok plan →
      List.Chain' (fun a b : FuelStop =>
        a.distance_from_start ≤ b.distance_from_start) plan.fuel_stops := by
  intro d cosr catalog mpg maxr slat slon elat elon route plan hnn h
  simp only [optimize_route] at h
  by_cases hle : route.distance_miles ≤ maxr
  · rw [if_pos hle] at h
    simp only [Except.ok.injEq] at h
    subst h
    exact List.chain'_nil
  · rw [if_neg hle] at h
    cases hrun : find_fuel_stops_with_geometry d cosr catalog slat slon elat elon
        route.geometry maxr with
    | error e => rw [hrun] at h; cases h
    | ok pr =>
      obtain ⟨stops, ins⟩ := pr
      rw [hrun] at h
      dsimp only at h
      simp only [Except.ok.injEq] at h
      subst h
      exact (go_stops_mono d cosr catalog elat elon route.geometry maxr hnn
        (catalog.length + 1) slat slon 0 0 stops ins hrun).1

/-- Witness for C3's amended statement on the concrete scenario. -/
theorem C3_witness :
    List.Chain' (fun a b : FuelStop =>
      a.distance_from_start ≤ b.distance_from_start) cexPlan.fuel_stops :=
  C3_stops_nondecreasing taxi cosrOne cexCatalog 25 500 0 0 10 0 cexRoute cexPlan
    taxi_nonneg (by with_unfolding_all rfl)

/-- Counterexample to C3 as stated: the concrete scenario succeeds with three
stops whose recorded `distance_from_start` values are 0.01, 0.01, 483 — the
first two collide because `round(·, 2)` is applied to cumulative distances
0.0069 and 0.0138 — so the emitted list is not strictly increasing. -/
theorem C3_counterexample :
    optimize_route taxi cosrOne cexCatalog 25 500 0 0 10 0 cexRoute = .ok cexPlan ∧
    ¬ List.Chain' (fun a b : FuelStop =>
      a.distance_from_start < b.distance_from_start) cexPlan.fuel_stops := by
  constructor
  · with_unfolding_all rfl
  · intro h
    have he : cexPlan.fuel_stops = cexStops := rfl
    rw [he] at h
    unfold cexStops at h
    rw [List.chain'_cons] at h
    exact absurd h.1 (by with_unfolding_all decide)

/-- C4 (amended): for every route whose total distance is at most max range,
`optimize_route` succeeds with an empty stop list and cost
`(distance / mpg) * average price`, the average price falling back to 3.50
on an empty catalog; the cost is strictly positive provided the route
distance, the mpg constant, and all catalog prices are positive (for a
zero-distance route the cost is 0, see the counterexample). -/
theorem C4_no_stops_short_route :
    ∀ (d : ℚ → ℚ → ℚ → ℚ → ℚ) (cosr : ℚ → ℚ) (catalog : List Station)
      (mpg maxr slat slon elat elon : ℚ) (route : Route),
      route.distance_miles ≤ maxr →
      optimize_route d cosr catalog mpg maxr slat slon elat elon route =
        .ok { route := route
              fuel_stops := []
              safety_insights := generate_initial_safety_insights route.distance_miles
              total_cost := route.distance_miles / mpg * get_average_fuel_price catalog
              total_distance_miles := route.distance_miles } ∧
      (catalog = [] → get_average_fuel_price catalog = 7 / 2) ∧
      (0 < route.distance_miles → 0 < mpg → (∀ s ∈ catalog, 0 < s.retail_price) →
        0 < route.distance_miles / mpg * get_average_fuel_price catalog) := by
  intro d cosr catalog mpg maxr slat slon elat elon route hle
  refine ⟨?_, ?_, ?_⟩
  · simp only [optimize_route]
    rw [if_pos hle]
  · intro hc
    subst hc
    rfl
  · intro h1 h2 h3
    exact mul_pos (div_pos h1 h2) (get_average_fuel_price_pos catalog h3)

/-- Witness for C4's amended statement: a 100-mile route against a 500-mile
range yields no stops and positive cost. -/
theorem C4_witness :
    optimize_route taxi cosrOne cexCatalog 25 500 0 0 10 0 shortRoute =
      .ok { route := shortRoute
            fuel_stops := []
            safety_insights := generate_initial_safety_insights shortRoute.distance_miles
            total_cost := shortRoute.distance_miles / 25 * get_average_fuel_price cexCatalog
            total_distance_miles := shortRoute.distance_miles } ∧
    0 < shortRoute.distance_miles / 25 * get_average_fuel_price cexCatalog := by
  have h := C4_no_stops_short_route taxi cosrOne cexCatalog 25 500 0 0 10 0 shortRoute
    (by with_unfolding_all decide)
  refine ⟨h.1, h.2.2 (by with_unfolding_all decide) (by norm_num) ?_⟩
  intro s hs
  unfold cexCatalog at hs
  fin_cases hs <;> with_unfolding_all decide

/-- Counterexample to C4 as stated: a provider route of total distance 0 is
within max range, and the returned plan has empty stops but `total_cost = 0`,
not strictly positive. -/
theorem C4_counterexample :
    optimize_route taxi cosrOne cexCatalog 25 500 0 0 10 0 zeroRoute = .ok zeroPlan ∧
    ¬ 0 < zeroPlan.total_cost := by
  constructor
  · with_unfolding_all rfl
  · with_unfolding_all decide

/-- C5: whenever the loop reaches a state where a refuel stop is mandatory
(geometry index inside the route, remaining on-route distance above the max
range) and the station selection returns no candidate, the run raises the
insufficient-stations error; in particular, with an empty station catalog and
a mandatory stop, `optimize_route` raises it rather than returning a plan. -/
theorem C5_insufficient_stations_error :
    (∀ (d : ℚ → ℚ → ℚ → ℚ → ℚ) (cosr : ℚ → ℚ) (catalog : List Station)
      (elat elon : ℚ) (geometry : List GeoPoint) (maxr : ℚ)
      (fuel : ℕ) (clat clon : ℚ) (idx : ℕ) (total : ℚ),
      idx < geometry.length - 1 →
      maxr < calculate_geometry_distance d geometry idx →
      find_best_station d cosr catalog clat clon maxr elat elon = none →
      find_fuel_stops_go d cosr catalog elat elon geometry maxr (fuel + 1)
        clat clon idx total = .error .insufficientStations) ∧
    (∀ (d : ℚ → ℚ → ℚ → ℚ → ℚ) (cosr : ℚ → ℚ) (mpg maxr slat slon elat elon : ℚ)
      (route : Route),
      maxr < route.distance_miles →
      0 < route.geometry.length - 1 →
      maxr < calculate_geometry_distance d route.geometry 0 →
      optimize_route d cosr [] mpg maxr slat slon elat elon route =
        .error .insufficientStations) := by
  constructor
  · intro d cosr catalog elat elon geometry maxr fuel clat clon idx total hidx hrem hfb
    exact go_step_insufficient d cosr catalog elat elon geometry maxr fuel clat clon
      idx total hidx hrem hfb
  · intro d cosr mpg maxr slat slon elat elon route h1 h2 h3
    simp only [optimize_route]
    rw [if_neg (not_le.mpr h1)]
    have hrun : find_fuel_stops_with_geometry d cosr [] slat slon elat elon
        route.geometry maxr = .error .insufficientStations := by
      rw [find_fuel_stops_with_geometry]
      exact go_step_insufficient d cosr [] elat elon route.geometry maxr 0 slat slon
        0 0 h2 h3 (find_best_station_nil d cosr slat slon maxr elat elon)
    rw [hrun]

/-- Witness for C5: with the empty catalog and the concrete 690-mile route,
`optimize_route` raises the insufficient-stations error. -/
theorem C5_witness :
    optimize_route taxi cosrOne [] 25 500 0 0 10 0 cexRoute =
      .error .insufficientStations :=
  C5_insufficient_stations_error.2 taxi cosrOne 25 500 0 0 10 0 cexRoute
    (by with_unfolding_all decide) (by with_unfolding_all decide)
    (by with_unfolding_all decide)

/-- C9: when the provider-reported total distance exceeds the max range but
the geometry-following distance from index 0 is within range (or the geometry
has fewer than two points), `optimize_route` still succeeds with an empty stop
list, no safety insights, and a cost computed from the catalog-wide average
price. -/
theorem C9_empty_stops_despite_long_route :
    ∀ (d : ℚ → ℚ → ℚ → ℚ → ℚ) (cosr : ℚ → ℚ) (catalog : List Station)
      (mpg maxr slat slon elat elon : ℚ) (route : Route),
      maxr < route.distance_miles →
      (calculate_geometry_distance d route.geometry 0 ≤ maxr ∨
        route.geometry.length ≤ 1) →
      optimize_route d cosr catalog mpg maxr slat slon elat elon route =
        .ok { route := route
              fuel_stops := []
              safety_insights := []
              total_cost := route.distance_miles / mpg * get_average_fuel_price catalog
              total_distance_miles := route.distance_miles } := by
  intro d cosr catalog mpg maxr slat slon elat elon route h1 h2
  simp only [optimize_route]
  rw [if_neg (not_le.mpr h1)]
  have hrun : find_fuel_stops_with_geometry d cosr catalog slat slon elat elon
      route.geometry maxr = .ok ([], []) := by
    rw [find_fuel_stops_with_geometry, find_fuel_stops_go]
    by_cases hidx : 0 < route.geometry.length - 1
    · rw [if_pos hidx]
      rcases h2 with h2 | h2
      · rw [if_pos h2]
      · exact absurd hidx (by omega)
    · rw [if_neg hidx]
  rw [hrun]
  rfl

/-- Witness for C9: the provider reports 600 miles for `mismatchRoute` while
its geometry sums to 69 taxi-miles, so the optimizer returns a plan with no
stops and the catalog-average cost. -/
theorem C9_witness :
    optimize_route taxi cosrOne cexCatalog 25 500 0 0 10 0 mismatchRoute =
      .ok { route := mismatchRoute
            fuel_stops := []
            safety_insights := []
            total_cost := mismatchRoute.distance_miles / 25 *
              get_average_fuel_price cexCatalog
            total_distance_miles := mismatchRoute.distance_miles } :=
  C9_empty_stops_despite_long_route taxi cosrOne cexCatalog 25 500 0 0 10 0
    mismatchRoute (by with_unfolding_all decide)
    (Or.inl (by with_unfolding_all decide))

/-- C6 (amended): a driver-fatigue insight is emitted iff the distance to the
chosen stop is at least 220 and the scan over the 260-mile bounding-box
candidates yields a cheapest in-[220,260]-window station whose primary key
differs from the chosen stop's; the scanned station belongs to that scanned
window and minimizes price over it, it exists iff the scanned window is
non-empty, and the emitted `safety_stop` is exactly that station (with its
distance rounded to one decimal).  The final conjunct bridges to the claim's
pure-distance window — all catalog stations at distance in [220, 260] —
exactly when the bounding box covers every catalog station within 260 miles;
the program's real `get_bounding_box`/`haversine` pair violates that coverage
at high latitudes, so the original claim's window reading is refuted by the
counterexample below. -/
theorem C6_safety_insight_iff :
    ∀ (d : ℚ → ℚ → ℚ → ℚ → ℚ) (cosr : ℚ → ℚ) (catalog : List Station)
      (clat clon : ℚ) (optimal : Station) (dto : ℚ),
      ((identify_safety_insight d cosr catalog clat clon optimal dto).isSome ↔
        (220 ≤ dto ∧ ∃ b, cheapest_in_window d cosr catalog clat clon = some b ∧
          b.pk ≠ optimal.pk)) ∧
      (∀ b, cheapest_in_window d cosr catalog clat clon = some b →
        b ∈ safetyWindow d cosr catalog clat clon ∧
        ∀ s ∈ safetyWindow d cosr catalog clat clon, b.retail_price ≤ s.retail_price) ∧
      (cheapest_in_window d cosr catalog clat clon = none ↔
        safetyWindow d cosr catalog clat clon = []) ∧
      (∀ ins b, identify_safety_insight d cosr catalog clat clon optimal dto = some ins →
        cheapest_in_window d cosr catalog clat clon = some b →
        ins.safety_stop = some ⟨b.truckstop_name, b.city, b.retail_price,
          round1 (d clat clon b.latitude b.longitude)⟩) ∧
      ((∀ s ∈ catalog, d clat clon s.latitude s.longitude ≤ 260 →
          inBox (get_bounding_box cosr clat clon 260) s = true) →
        safetyWindow d cosr catalog clat clon =
          catalog.filter (fun s => decide (inSafetyRange d clat clon s))) := by
  intro d cosr catalog clat clon optimal dto
  refine ⟨?_, ?_, ?_, ?_, ?_⟩
  · by_cases h220 : dto < 220
    · rw [identify_safety_insight, if_pos h220]
      simp only [Option.isSome_none, Bool.false_eq_true, false_iff]
      intro hc
      exact absurd hc.1 (not_le.mpr h220)
    · rw [identify_safety_insight, if_neg h220]
      have h220' : 220 ≤ dto := not_lt.mp h220
      cases hcw : cheapest_in_window d cosr catalog clat clon with
      | none =>
        dsimp only
        simp only [Option.isSome_none, Bool.false_eq_true, false_iff]
        rintro ⟨_, b, hb, _⟩
        cases hb
      | some b0 =>
        dsimp only
        by_cases hpk : b0.pk = optimal.pk
        · rw [if_pos hpk]
          simp only [Option.isSome_none, Bool.false_eq_true, false_iff]
          rintro ⟨_, b, hb, hbn⟩
          injection hb with hb
          subst hb
          exact hbn hpk
        · rw [if_neg hpk]
          simp only [Option.isSome_some, true_iff]
          exact ⟨h220', b0, rfl, hpk⟩
  · intro b hb
    rw [cheapest_in_window] at hb
    obtain ⟨hmem, _, hmin⟩ := safetyFold_some d clat clon _ none b hb
    rcases hmem with hc | hc
    · cases hc
    · rw [safetyWindow]
      exact ⟨hc, hmin⟩
  · rw [cheapest_in_window, safetyWindow]
    exact safetyFold_none_iff d clat clon _
  · intro ins b hins hcw
    rw [identify_safety_insight] at hins
    by_cases h220 : dto < 220
    · rw [if_pos h220] at hins; cases hins
    · rw [if_neg h220] at hins
      rw [hcw] at hins
      dsimp only at hins
      by_cases hpk : b.pk = optimal.pk
      · rw [if_pos hpk] at hins; cases hins
      · rw [if_neg hpk] at hins
        injection hins with hins
        rw [← hins]
  · intro hbox
    rw [safetyWindow]
    rw [List.filter_filter]
    apply List.filter_congr
    intro x hx
    by_cases hrange : inSafetyRange d clat clon x
    · have hin := hbox x hx hrange.2
      simp [hin, hrange]
    · simp [hrange]

/-- Witness for C6: on the concrete window scenario the scan picks `stD`
(price 3, 241.5 taxi-miles away), it lies in the window, and — `stD` differing
from the chosen stop `stC` — the insight is emitted. -/
theorem C6_witness :
    stD ∈ safetyWindow taxi cosrOne wCatalog 0 0 ∧
    (identify_safety_insight taxi cosrOne wCatalog 0 0 stC 483).isSome = true := by
  have h := C6_safety_insight_iff taxi cosrOne wCatalog 0 0 stC 483
  constructor
  · exact (h.2.1 stD (by with_unfolding_all rfl)).1
  · exact h.1.mpr ⟨by norm_num, stD, by with_unfolding_all rfl,
      by with_unfolding_all decide⟩

/-- Counterexample to C6 as stated: at current position (80, 0) with chosen
stop `stOpt80` at distance 276 ≥ 220, the claim's window — stations whose
distance from the current position lies in [220, 260] — is exactly
`[stHigh80]`, and its cheapest member differs from the chosen stop, so the
claim requires an insight; but `identify_safety_insight` emits none, because
`stHigh80` at longitude 21.75° falls outside the bounding box, whose
longitude half-width at latitude 80 is 260 / (69 · cos 80°) ≈ 21.70°.  The
stand-ins reproduce the real numbers: haversine(80, 0, 80, 21.75) ≈ 259.14
miles and cos 80° ≈ 0.17365. -/
theorem C6_counterexample :
    d80 80 0 stOpt80.latitude stOpt80.longitude = 276 ∧
    220 ≤ (276 : ℚ) ∧
    highLatCatalog.filter (fun s => decide (inSafetyRange d80 80 0 s)) = [stHigh80] ∧
    stHigh80.pk ≠ stOpt80.pk ∧
    identify_safety_insight d80 cosr80 highLatCatalog 80 0 stOpt80 276 = none :=
  ⟨by with_unfolding_all rfl, by norm_num, by with_unfolding_all rfl,
    by with_unfolding_all decide, by with_unfolding_all rfl⟩

/-- C7: for every successful optimization call, consecutive pre-stop positions
and selected stations — starting from the start coordinate — are all within
`max_range` of each other: no recorded stop is farther than the max effective
range from the position it was selected from. -/
theorem C7_stops_within_range :
    ∀ (d : ℚ → ℚ → ℚ → ℚ → ℚ) (cosr : ℚ → ℚ) (catalog : List Station)
      (mpg maxr slat slon elat elon : ℚ) (route : Route) (plan : RoutePlan),
      optimize_route d cosr catalog mpg maxr slat slon elat elon route = .ok plan →
      List.Chain (fun p q : ℚ × ℚ => d p.1 p.2 q.1 q.2 ≤ maxr) (slat, slon)
        (plan.fuel_stops.map fun f => (f.lat, f.lon)) := by
  intro d cosr catalog mpg maxr slat slon elat elon route plan h
  simp only [optimize_route] at h
  by_cases hle : route.distance_miles ≤ maxr
  · rw [if_pos hle] at h
    simp only [Except.ok.injEq] at h
    subst h
    exact List.Chain.nil
  · rw [if_neg hle] at h
    cases hrun : find_fuel_stops_with_geometry d cosr catalog slat slon elat elon
        route.geometry maxr with
    | error e => rw [hrun] at h; cases h
    | ok pr =>
      obtain ⟨stops, ins⟩ := pr
      rw [hrun] at h
      dsimp only at h
      simp only [Except.ok.injEq] at h
      subst h
      exact go_chain_range d cosr catalog elat elon route.geometry maxr
        (catalog.length + 1) slat slon 0 0 stops ins hrun

/-- Witness for C7 on the concrete scenario: all three hops (0.0069, 0.0069
and 482.9862 taxi-miles) are within the 500-mile range. -/
theorem C7_witness :
    List.Chain (fun p q : ℚ × ℚ => taxi p.1 p.2 q.1 q.2 ≤ 500) (0, 0)
      (cexPlan.fuel_stops.map fun f => (f.lat, f.lon)) :=
  C7_stops_within_range taxi cosrOne cexCatalog 25 500 0 0 10 0 cexRoute cexPlan
    (by with_unfolding_all rfl)

/-- C10: within one successful optimization call the straight-line distance to
the destination strictly decreases at every recorded stop — each selected
station is strictly closer to the destination than the position it was
selected from — and consequently no two recorded stops share coordinates, so
no station is selected twice. -/
theorem C10_strict_progress_no_repeat :
    ∀ (d : ℚ → ℚ → ℚ → ℚ → ℚ) (cosr : ℚ → ℚ) (catalog : List Station)
      (mpg maxr slat slon elat elon : ℚ) (route : Route) (plan : RoutePlan),
      optimize_route d cosr catalog mpg maxr slat slon elat elon route = .ok plan →
      List.Chain (fun p q : ℚ × ℚ => d q.1 q.2 elat elon < d p.1 p.2 elat elon)
        (slat, slon) (plan.fuel_stops.map fun f => (f.lat, f.lon)) ∧
      (plan.fuel_stops.map fun f => (f.lat, f.lon)).Pairwise (· ≠ ·) := by
  intro d cosr catalog mpg maxr slat slon elat elon route plan h
  have hch : List.Chain (fun p q : ℚ × ℚ => d q.1 q.2 elat elon < d p.1 p.2 elat elon)
      (slat, slon) (plan.fuel_stops.map fun f => (f.lat, f.lon)) := by
    simp only [optimize_route] at h
    by_cases hle : route.distance_miles ≤ maxr
    · rw [if_pos hle] at h
      simp only [Except.ok.injEq] at h
      subst h
      exact List.Chain.nil
    · rw [if_neg hle] at h
      cases hrun : find_fuel_stops_with_geometry d cosr catalog slat slon elat elon
          route.geometry maxr with
      | error e => rw [hrun] at h; cases h
      | ok pr =>
        obtain ⟨stops, ins⟩ := pr
        rw [hrun] at h
        dsimp only at h
        simp only [Except.ok.injEq] at h
        subst h
        exact go_chain_strict d cosr catalog elat elon route.geometry maxr
          (catalog.length + 1) slat slon 0 0 stops ins hrun
  refine ⟨hch, ?_⟩
  haveI : IsTrans (ℚ × ℚ)
      (fun p q : ℚ × ℚ => d q.1 q.2 elat elon < d p.1 p.2 elat elon) :=
    ⟨fun _ _ _ hab hbc => lt_trans hbc hab⟩
  have hpw := (List.chain_iff_pairwise.mp hch).of_cons
  refine hpw.imp ?_
  intro a b hlt heq
  rw [heq] at hlt
  exact lt_irrefl _ hlt

/-- Witness for C10 on the concrete scenario: the distances to the destination
along the run are 690, 689.9931, 689.9862, 207 — strictly decreasing — and the
three stop coordinates are pairwise distinct. -/
theorem C10_witness :
    List.Chain (fun p q : ℚ × ℚ => taxi q.1 q.2 10 0 < taxi p.1 p.2 10 0) (0, 0)
      (cexPlan.fuel_stops.map fun f => (f.lat, f.lon)) ∧
    (cexPlan.fuel_stops.map fun f => (f.lat, f.lon)).Pairwise (· ≠ ·) :=
  C10_strict_progress_no_repeat taxi cosrOne cexCatalog 25 500 0 0 10 0 cexRoute
    cexPlan (by with_unfolding_all rfl)

end FuelRoute
